import Mathlib

/-!
Shallow embedding of `src/project_differ.py` (qgis-multiplayer).

Modelling conventions:
* An `ET.Element` is modelled as `Element`: tag, ordered attribute list,
  optional text, ordered children.  (`Element` carries its children as the
  mutually-defined `ElemList`, isomorphic to `List Element`, so that all
  recursion over the tree is structural; `E` builds an element from a plain
  `List Element` and `Element.children` converts back.)
  `ET.tostring(a) != ET.tostring(b)` is modelled as structural inequality of
  the two `Element` values: the serialisation of an element is determined by
  exactly these fields.
* Python `ET.fromstring` (the XML parser) is external library code; documents
  are modelled post-parse, i.e. functions that take document text in the
  source take the parsed root `Element` here (absent — or unparseable, where
  the source swallows the parse failure — text is modelled as `Option.none`).
* Python `set` iteration order is unspecified.  The canonical model
  `setUnion` enumerates the union in sorted order; `detectLayerIter` keeps
  the iteration sequence as an explicit parameter so that order-dependence
  of the source can be stated.
* Python string primitives `s.split(sep)`, `sub in s` and `int(s)` are
  modelled character-wise by `pySplit`, `pySub` and `pyToInt` (`pyToInt`
  covers sign+digits literals; exotic `int()` inputs such as surrounding
  whitespace or underscores are out of scope).
* Host (QGIS) mutation calls are modelled as an emitted `HostCall` log;
  the host state the code queries is the `Host` oracle.
* A Python exception escaping `apply_changes` is modelled as `Except.error`.
-/

mutual
/-- An XML element: tag, attributes, optional text, children. -/
inductive Element where
  | el (tag : String) (attrs : List (String × String)) (text : Option String)
      (children : ElemList)

/-- A list of elements (mutually inductive with `Element` so that recursion
over trees is structural). -/
inductive ElemList where
  | nil
  | cons (hd : Element) (tl : ElemList)
end

mutual
def elemDecEq : (a b : Element) → Decidable (a = b)
  | .el t1 a1 x1 c1, .el t2 a2 x2 c2 =>
    match decEq t1 t2 with
    | isFalse h => isFalse (by intro he; injection he with e1 e2 e3 e4; exact h e1)
    | isTrue h1 =>
      match decEq a1 a2 with
      | isFalse h => isFalse (by intro he; injection he with e1 e2 e3 e4; exact h e2)
      | isTrue h2 =>
        match decEq x1 x2 with
        | isFalse h => isFalse (by intro he; injection he with e1 e2 e3 e4; exact h e3)
        | isTrue h3 =>
          match elemListDecEq c1 c2 with
          | isFalse h => isFalse (by intro he; injection he with e1 e2 e3 e4; exact h e4)
          | isTrue h4 => isTrue (by rw [h1, h2, h3, h4])

def elemListDecEq : (as bs : ElemList) → Decidable (as = bs)
  | .nil, .nil => isTrue rfl
  | .nil, .cons _ _ => isFalse (by intro he; exact ElemList.noConfusion he)
  | .cons _ _, .nil => isFalse (by intro he; exact ElemList.noConfusion he)
  | .cons a as, .cons b bs =>
    match elemDecEq a b with
    | isFalse h => isFalse (by intro he; injection he with e1 e2; exact h e1)
    | isTrue h1 =>
      match elemListDecEq as bs with
      | isFalse h => isFalse (by intro he; injection he with e1 e2; exact h e2)
      | isTrue h2 => isTrue (by rw [h1, h2])
end

instance : DecidableEq Element := elemDecEq

instance : DecidableEq ElemList := elemListDecEq

def ElemList.toList : ElemList → List Element
  | .nil => []
  | .cons c cs => c :: cs.toList

def ElemList.ofList : List Element → ElemList
  | [] => .nil
  | c :: cs => .cons c (ElemList.ofList cs)

/-- Build an element from a plain list of children. -/
def E (tag : String) (attrs : List (String × String)) (text : Option String)
    (children : List Element) : Element :=
  .el tag attrs text (.ofList children)

def Element.tag : Element → String
  | .el t _ _ _ => t

def Element.attrs : Element → List (String × String)
  | .el _ a _ _ => a

def Element.text : Element → Option String
  | .el _ _ tx _ => tx

def Element.children : Element → List Element
  | .el _ _ _ cs => cs.toList

mutual
/-- Size measure used as recursion fuel for the structural differ. -/
def esize : Element → Nat
  | .el _ _ _ cs => 1 + esizeL cs

def esizeL : ElemList → Nat
  | .nil => 0
  | .cons c cs => esize c + esizeL cs
end

mutual
/-- All proper descendants of an element, in document (pre-)order;
this is ElementTree's `.//` axis. -/
def descendants : Element → List Element
  | .el _ _ _ cs => descList cs

def descList : ElemList → List Element
  | .nil => []
  | .cons c cs => c :: (descendants c ++ descList cs)
end

/-- `root.findall('.//tag')`: every descendant with the given tag,
in document order. -/
def findallDeep (tag : String) (root : Element) : List Element :=
  (descendants root).filter (fun e => e.tag = tag)

/-- `e.find(tag)`: first direct child with the given tag. -/
def elemFindChild (e : Element) (tag : String) : Option Element :=
  e.children.find? (fun c => c.tag = tag)

/-- `e.get(k)`: attribute lookup. -/
def elemAttr (e : Element) (k : String) : Option String :=
  (e.attrs.find? (fun p => p.1 = k)).map (fun p => p.2)

/-- Python truthiness of `e.text`: `some t` only when text is present and
non-empty. -/
def truthyText (e : Element) : Option String :=
  match e.text with
  | some s => if s = "" then none else some s
  | none => none

/-- The stable identifier of a maplayer element: the text of its first
direct `id` child, when present and non-empty
(`layer.find('id')` plus the `id_elem is not None and id_elem.text` check). -/
def layerId (l : Element) : Option String :=
  (elemFindChild l "id").bind truthyText

/-- Strict lexicographic comparison on characters (by code point). -/
def charLt (c d : Char) : Bool := c.toNat < d.toNat

/-- Strict lexicographic comparison on character lists. -/
def lexLt : List Char → List Char → Bool
  | [], [] => false
  | [], _ :: _ => true
  | _ :: _, [] => false
  | c :: cs, d :: ds => if c = d then lexLt cs ds else charLt c d

/-- Strict lexicographic comparison on strings. -/
def strLt (a b : String) : Bool := lexLt a.data b.data

/-- Insert a string into a sorted duplicate-free list, keeping it sorted and
duplicate-free. -/
def sinsert (x : String) : List String → List String
  | [] => [x]
  | y :: ys =>
    if x = y then y :: ys
    else if strLt x y then x :: y :: ys
    else y :: sinsert x ys

/-- Canonical model of Python's `set(a) | set(b)` as iterated by the source:
the union of the two key collections.  Python leaves the iteration order
unspecified; the model enumerates it in sorted order (see `detectLayerIter`
for the order-as-parameter version). -/
def setUnion (a b : List String) : List String :=
  (a ++ b).foldr sinsert []

/-- Python `s.split(sep)` helper: if `sep` is a prefix of the list, return
the remainder. -/
def dropPrefixCh : List Char → List Char → Option (List Char)
  | [], l => some l
  | _ :: _, [] => none
  | s :: ss, c :: cs => if c = s then dropPrefixCh ss cs else none

/-- Python `s.split(sep)` worker over characters (fuelled; the wrapper
supplies fuel that always suffices since each step consumes at least one
character). -/
def splitCh (sep : List Char) : Nat → List Char → List Char → List (List Char)
  | _, [], acc => [acc.reverse]
  | 0, l, acc => [acc.reverse ++ l]
  | fuel + 1, c :: cs, acc =>
    match dropPrefixCh sep (c :: cs) with
    | some rest => acc.reverse :: splitCh sep fuel rest []
    | none => splitCh sep fuel cs (c :: acc)

/-- Python `s.split(sep)` for a non-empty separator. -/
def pySplit (s sep : String) : List String :=
  if sep.data = [] then [s]
  else (splitCh sep.data s.data.length s.data []).map String.mk

/-- Python substring test `sub in s` (for non-empty `sub`): the split
produces at least two parts. -/
def pySub (sub s : String) : Bool :=
  2 ≤ (pySplit s sub).length

def digitsAux : List Char → Nat → Option Nat
  | [], acc => some acc
  | c :: cs, acc =>
    if 48 ≤ c.toNat ∧ c.toNat ≤ 57 then digitsAux cs (acc * 10 + (c.toNat - 48))
    else none

def digitsToNat : List Char → Option Nat
  | [] => none
  | l => digitsAux l 0

/-- Python `int(s)` (`none` models the `ValueError`). -/
def pyToInt (s : String) : Option Int :=
  match s.data with
  | '-' :: rest => (digitsToNat rest).map (fun n => -(n : Int))
  | '+' :: rest => (digitsToNat rest).map (fun n => (n : Int))
  | l => (digitsToNat l).map (fun n => (n : Int))

/-- `ChangeType` of the source. -/
inductive ChangeType where
  | added
  | removed
  | modified
deriving DecidableEq

/-- `change_type.value.title()` as used in descriptions. -/
def ChangeType.title : ChangeType → String
  | .added => "Added"
  | .removed => "Removed"
  | .modified => "Modified"

/-- `StructuralChange` dataclass. -/
structure StructuralChange where
  element_type : String
  parent_path : String
  old_element : Option Element := none
  new_element : Option Element := none
  change_type : ChangeType := .modified
deriving DecidableEq

/-- `ProjectDifference` dataclass. -/
structure ProjectDifference where
  path : String
  change_type : ChangeType
  old_value : Option Element := none
  new_value : Option Element := none
  description : String := ""
deriving DecidableEq

/-- The identifier keys of a tree: the (truthy) ids of all `maplayer`
descendants, in document order (the keys of the source's id dict, which
dedups; `setUnion` dedups them here). -/
def layerKeys (root : Element) : List String :=
  (findallDeep "maplayer" root).filterMap layerId

/-- `layer_ids.get(layer_id)`: the id dict is built by insertion with
overwrite, so lookup returns the **last** maplayer carrying that id. -/
def lookupLayer (root : Element) (tid : String) : Option Element :=
  ((findallDeep "maplayer" root).filter (fun l => layerId l = some tid)).getLast?

/-- Classification of one identifier in `detect_layer_changes`'s loop body. -/
def layerChangeFor (old_root new_root : Element) (tid : String) : List StructuralChange :=
  match lookupLayer old_root tid, lookupLayer new_root tid with
  | some o, some n =>
      if o = n then []
      else [{ element_type := "maplayer", parent_path := "projectlayers",
              old_element := some o, new_element := some n, change_type := .modified }]
  | none, some n =>
      [{ element_type := "maplayer", parent_path := "projectlayers",
         old_element := none, new_element := some n, change_type := .added }]
  | some o, none =>
      [{ element_type := "maplayer", parent_path := "projectlayers",
         old_element := some o, new_element := none, change_type := .removed }]
  | none, none => []

/-- `detect_layer_changes` with the iteration order over the identifier
union made explicit (the source iterates a Python `set`, whose order is
unspecified). -/
def detectLayerIter (order : List String) (old_root new_root : Element) :
    List StructuralChange :=
  order.flatMap (layerChangeFor old_root new_root)

/-- `detect_layer_changes`, with the set iterated in the canonical
(sorted) order. -/
def detect_layer_changes (old_root new_root : Element) : List StructuralChange :=
  detectLayerIter (setUnion (layerKeys old_root) (layerKeys new_root)) old_root new_root

/-- `f"{path}⧫{tag}" if path else tag`. -/
def joinPath (path tag : String) : String :=
  if path = "" then tag else path ++ "⧫" ++ tag

/-- `f"{path}⧫{tag}[{i}]" if path else f"{tag}[{i}]"`. -/
def joinPathIdx (path tag : String) (i : Nat) : String :=
  joinPath path tag ++ "[" ++ toString i ++ "]"

/-- One index of the positional (multi-occurrence) comparison loop of
`detect_structural_changes`, with the recursive call abstracted as
`recur`. -/
def dscIdx (recur : Element → Element → String → List StructuralChange)
    (path tag : String) (oc nc : List Element) (i : Nat) : List StructuralChange :=
  match oc[i]?, nc[i]? with
  | some o, some n =>
      if o = n then []
      else
        { element_type := tag, parent_path := path,
          old_element := some o, new_element := some n,
          change_type := .modified } ::
        recur o n (joinPathIdx path tag i)
  | none, some n =>
      [{ element_type := tag, parent_path := path,
         old_element := none, new_element := some n,
         change_type := .added }]
  | some o, none =>
      [{ element_type := tag, parent_path := path,
         old_element := some o, new_element := none,
         change_type := .removed }]
  | none, none => []

/-- The per-tag body of `detect_structural_changes`'s loop, with the
recursive call abstracted as `recur`.  `oc`/`nc` are the old/new children
with the current tag. -/
def dscTag (recur : Element → Element → String → List StructuralChange)
    (path tag : String) (oc nc : List Element) : List StructuralChange :=
  match oc, nc with
  | [o], [n] =>
      -- exactly one child with this tag on each side
      if o = n then []
      else
        { element_type := tag, parent_path := path,
          old_element := some o, new_element := some n,
          change_type := .modified } ::
        recur o n (joinPath path tag)
  | _, _ =>
    if 1 < oc.length ∨ 1 < nc.length then
      -- multiple children with the same tag: compare by index
      (List.range (max oc.length nc.length)).flatMap (dscIdx recur path tag oc nc)
    else
      -- one side has children with this tag, the other does not
      if nc.isEmpty then
        oc.map fun o =>
          { element_type := tag, parent_path := path,
            old_element := some o, new_element := none,
            change_type := .removed }
      else
        nc.map fun n =>
          { element_type := tag, parent_path := path,
            old_element := none, new_element := some n,
            change_type := .added }

/-- `detect_structural_changes` with the recursion depth bounded by fuel
(the wrapper supplies fuel that always suffices, since every recursive call
descends into children on both sides).  The set of child tags is iterated
in the canonical sorted order (the source iterates a Python `set`). -/
def dscF : Nat → Element → Element → String → List StructuralChange
  | 0, _, _, _ => []
  | fuel + 1, old_element, new_element, path =>
    (setUnion (old_element.children.map Element.tag)
        (new_element.children.map Element.tag)).flatMap fun tag =>
      dscTag (dscF fuel) path tag
        (old_element.children.filter (fun c => c.tag = tag))
        (new_element.children.filter (fun c => c.tag = tag))

/-- `detect_structural_changes(old, new)` with the default path `""`. -/
def detect_structural_changes (old_root new_root : Element) : List StructuralChange :=
  dscF (esize old_root + esize new_root) old_root new_root ""

/-- The per-change body of `compare_projects`'s conversion loop: build the
path string and the fixed-template description. -/
def toDifference (c : StructuralChange) : ProjectDifference :=
  if c.parent_path = "" then
    { path := c.element_type, change_type := c.change_type,
      old_value := c.old_element, new_value := c.new_element,
      description := c.change_type.title ++ " " ++ c.element_type }
  else
    { path := c.parent_path ++ "⧫" ++ c.element_type, change_type := c.change_type,
      old_value := c.old_element, new_value := c.new_element,
      description :=
        c.change_type.title ++ " " ++ c.element_type ++ " in " ++ c.parent_path }

/-- `compare_projects`, modelled on already-parsed roots (parsing the two
texts is §4.1 / external library code). -/
def compare_projects (old_root new_root : Element) : List ProjectDifference :=
  (detect_layer_changes old_root new_root ++
    detect_structural_changes old_root new_root).map toDifference

/-- The `for i, tree_layer in enumerate(...)` loop of `get_layer_position`:
the index of the first element whose `id` attribute equals the target, or 0
past the end of the list. -/
def enumeratePos (target : String) : List Element → Nat → Nat
  | [], _ => 0
  | tl :: tls, i =>
    if elemAttr tl "id" = some target then i else enumeratePos target tls (i + 1)

/-- `get_layer_position(new_maplayer_element, database_content)`.  The
database content argument is the parsed reference tree; `none` stands for
absent (or unparseable) content, for which the source's catch-all returns
the default position 0. -/
def get_layer_position (new_maplayer_element : Element) (db : Option Element) : Nat :=
  match layerId new_maplayer_element with
  | none => 0            -- no (truthy) id child: default to top
  | some target_layer_id =>
    match db with
    | none => 0          -- parsing the database content failed: caught, default 0
    | some db_root =>
      match (descendants db_root).find? (fun e => e.tag = "layer-tree-group") with
      | none => 0        -- no layer tree
      | some layer_tree =>
        enumeratePos target_layer_id
          (layer_tree.children.filter (fun c => c.tag = "layer-tree-layer")) 0

/-- The host-visible mutation calls issued by the patch applier. -/
inductive HostCall where
  | setTitle (t : String)
  | addLayer (layerType datasource layername provider : String)
      (layerIdVal : Option String) (position : Nat)
  | applyStyling (layerIndex : Nat) (payload : Element)
deriving DecidableEq

/-- The live-document state the applier queries: the identifiers of the
project's layers in `project.mapLayers()` order, and the validity oracle
for newly constructed layers (type, datasource, layername, provider). -/
structure Host where
  order : List String
  valid : String → String → String → String → Bool

/-- `project.mapLayer(layer_id)` truthiness (an existence query, not a
mutation); a Python `None` id never matches a layer. -/
def Host.hasLayer (host : Host) : Option String → Bool
  | some i => host.order.contains i
  | none => false

/-- `apply_project_title`: issues the set-title host call (its internal
catch-all swallows host failures). -/
def apply_project_title (new_title : String) : List HostCall :=
  [.setTitle new_title]

/-- `apply_layer_addition`: the list of host mutation calls it issues.
All its failure paths (missing required children, existing layer, invalid
or unsupported layer) return without mutating; the reserved
"Pointer Positions" layername returns before any host interaction. -/
def apply_layer_addition (host : Host) (ml : Element) (position : Nat) : List HostCall :=
  let layer_type := (elemAttr ml "type").getD "vector"
  match elemFindChild ml "datasource", elemFindChild ml "layername",
      elemFindChild ml "provider" with
  | some datasource_elem, some layername_elem, some provider_elem =>
    let datasource := datasource_elem.text.getD ""
    let layername :=
      match layername_elem.text with
      | some t => if t = "" then "New Layer" else t    -- `text or "New Layer"`
      | none => "New Layer"
    let provider := provider_elem.text.getD ""
    let layer_id : Option String :=
      match elemFindChild ml "id" with
      | some id_elem => id_elem.text
      | none => some "unknown"
    if layername = "Pointer Positions" then []         -- sentinel: not synced
    else if host.hasLayer layer_id then []             -- layer already exists
    else if layer_type = "vector" ∨ layer_type = "raster" then
      if host.valid layer_type datasource layername provider then
        [.addLayer layer_type datasource layername provider layer_id position]
      else []                                          -- invalid layer
    else []                                            -- unsupported layer type
  | _, _, _ => []                                      -- missing required elements

/-- `apply_symbology(layer_index, payload)`: issues the read-symbology host
call unless the index is out of range. -/
def apply_symbology (host : Host) (layer_index : Nat) (payload : Element) : List HostCall :=
  if host.order.length ≤ layer_index then []
  else [.applyStyling layer_index payload]

/-- Python negative-index-tolerant list indexing (`IndexError` gives `none`). -/
def pyIdx {α : Type} (l : List α) (i : Int) : Option α :=
  if 0 ≤ i then l[i.toNat]?
  else
    let j := (l.length : Int) + i
    if 0 ≤ j then l[j.toNat]? else none

/-- `maplayer_copy.remove(old_renderer)` after `find`: drop the first direct
child with the given tag, if any. -/
def removeFirstChild : List Element → String → List Element
  | [], _ => []
  | c :: cs, t => if c.tag = t then cs else c :: removeFirstChild cs t

/-- The renderer-reconstruction block of `apply_changes` (everything inside
its `try`, whose failures are swallowed): locate the maplayer at the diff's
positional index in the database tree, resolve its id to a live layer, and
apply the recomposed payload. -/
def applyRenderer (host : Host) (db_root : Element) (layer_index : Int)
    (new_renderer : Element) : List HostCall :=
  let maplayers := findallDeep "maplayer" db_root
  if layer_index < (maplayers.length : Int) then
    match pyIdx maplayers layer_index with
    | none => []                                -- IndexError: caught
    | some db_layer_element =>
      match layerId db_layer_element with
      | none => []                              -- no truthy id
      | some db_layer_id =>
        if host.order.contains db_layer_id then
          let current_index := host.order.indexOf db_layer_id
          let maplayer_copy : Element :=
            E db_layer_element.tag db_layer_element.attrs db_layer_element.text
              (removeFirstChild db_layer_element.children "renderer-v2" ++ [new_renderer])
          apply_symbology host current_index maplayer_copy
        else []                                 -- no matching live layer
  else []                                       -- index not in database content

/-- The allow-list of style/metadata sub-tags. -/
def styleAllowlist : List String :=
  ["renderer-v2", "labeling", "blendMode", "layerOpacity"]

/-- Running state of the `apply_changes` loop. -/
structure ApplyResult where
  applied : Bool
  applied_changes : Nat
  skipped_changes : Nat
  calls : List HostCall
deriving DecidableEq

/-- One iteration of the `apply_changes` loop.  `Except.error` models a
Python exception escaping the loop (the only such site is `int(...)` on the
positional index, which sits *outside* the `try` block). -/
def applyOne (host : Host) (db : Option Element) (st : ApplyResult)
    (d : ProjectDifference) : Except String ApplyResult :=
  let parts := pySplit d.path "⧫"
  let skip : Except String ApplyResult :=
    .ok { st with skipped_changes := st.skipped_changes + 1 }
  -- `if ADDED and isinstance(new_value, Element):` — layer additions
  if d.change_type = .added ∧ d.new_value.isSome then
    match d.new_value with
    | some new_value =>
      let element_type := parts.getLastD ""
      let parent_path := String.intercalate "⧫" parts.dropLast
      if element_type = "maplayer" ∧ parent_path = "projectlayers" then
        let position := get_layer_position new_value db
        let cs := apply_layer_addition host new_value position
        .ok { applied := true, applied_changes := st.applied_changes + 1,
              skipped_changes := st.skipped_changes, calls := st.calls ++ cs }
      else skip
    | none => skip  -- unreachable: the branch condition ensures `isSome`
  -- `elif MODIFIED and isinstance(new_value, Element):` — structural changes
  else if d.change_type = .modified ∧ d.new_value.isSome then
    match d.new_value with
    | some new_value =>
      let element_type := parts.getLastD ""
      let parent_path := String.intercalate "⧫" parts.dropLast
      if element_type ∈ styleAllowlist then
        if element_type = "renderer-v2" ∧ pySub "maplayer[" parent_path ∧ db.isSome then
          match pySplit parent_path "maplayer[" with
          | _ :: seg :: _ =>
            let idxStr := (pySplit seg "]").headD ""
            match pyToInt idxStr with
            | none => .error "ValueError: invalid literal for int()"
            | some layer_index =>
              let cs := match db with
                | some db_root => applyRenderer host db_root layer_index new_value
                | none => []
              .ok { applied := true, applied_changes := st.applied_changes + 1,
                    skipped_changes := st.skipped_changes, calls := st.calls ++ cs }
          | _ =>  -- unreachable: `pySub` guarantees at least two parts
            skip
        else
          -- "TODO: Handle important change": acknowledged as applied, no host call
          .ok { applied := true, applied_changes := st.applied_changes + 1,
                skipped_changes := st.skipped_changes, calls := st.calls }
      else skip
    | none => skip  -- unreachable: the branch condition ensures `isSome`
  -- `elif MODIFIED and ("title" in path and isinstance(new_value, Element)):`
  -- — project title changes.  Note this condition implies the previous
  -- branch's condition, exactly as in the source's elif chain.
  else if d.change_type = .modified ∧ (pySub "title" d.path ∧ d.new_value.isSome) then
    match d.new_value with
    | some new_value =>
      match truthyText new_value with
      | some title_text =>
        .ok { applied := true, applied_changes := st.applied_changes + 1,
              skipped_changes := st.skipped_changes,
              calls := st.calls ++ apply_project_title title_text }
      | none => skip  -- empty title text: not handled
    | none => skip  -- unreachable: the branch condition ensures `isSome`
  else skip

/-- `apply_changes(differences, database_content)`. -/
def apply_changes (host : Host) (differences : List ProjectDifference)
    (db : Option Element) : Except String ApplyResult :=
  differences.foldlM (applyOne host db)
    { applied := false, applied_changes := 0, skipped_changes := 0, calls := [] }

/-- Flip `Added` and `Removed`; `Modified` is self-mirror. -/
def ChangeType.flip : ChangeType → ChangeType
  | .added => .removed
  | .removed => .added
  | .modified => .modified

/-- The mirror of a structural change: kind flipped, old/new swapped,
location unchanged. -/
def mirrorSC (c : StructuralChange) : StructuralChange :=
  { element_type := c.element_type, parent_path := c.parent_path,
    old_element := c.new_element, new_element := c.old_element,
    change_type := c.change_type.flip }

/-- The order-relevant fields of a difference record: path, kind, old
value, new value (the description is a fixed template over kind and
location). -/
def stripD (d : ProjectDifference) :
    String × ChangeType × Option Element × Option Element :=
  (d.path, d.change_type, d.old_value, d.new_value)

/-- Mirror on the projected record: kind flips, old/new values swap, the
path stays. -/
def mirrorQuad (q : String × ChangeType × Option Element × Option Element) :
    String × ChangeType × Option Element × Option Element :=
  (q.1, q.2.1.flip, q.2.2.2, q.2.2.1)

/-- A maplayer element with identifier `L1`. -/
def layerL1 : Element :=
  E "maplayer" [] none [E "id" [] (some "L1") [], E "layername" [] (some "Layer 1") []]

/-- A maplayer element with identifier `L2`. -/
def layerL2 : Element :=
  E "maplayer" [] none [E "id" [] (some "L2") [], E "layername" [] (some "Layer 2") []]

/-- `<qgis><projectlayers>[L1]</projectlayers></qgis>`. -/
def docL1 : Element := E "qgis" [] none [E "projectlayers" [] none [layerL1]]

/-- The same document with a second entity `L2` appended. -/
def docL1L2 : Element := E "qgis" [] none [E "projectlayers" [] none [layerL1, layerL2]]

/-- A host with no live layers; every constructed layer is valid. -/
def hostEmpty : Host := ⟨[], fun _ _ _ _ => true⟩

/-- The title-modification difference of §8: new node `<title>Project B</title>`
at path `title` (the path `compare` produces for a changed direct child of
the root). -/
def titleDiff : ProjectDifference :=
  { path := "title", change_type := .modified,
    old_value := some (E "title" [] (some "Project A") []),
    new_value := some (E "title" [] (some "Project B") []),
    description := "Modified title" }

/-- A renderer modification whose parent path carries a malformed positional
index (`maplayer[x]`). -/
def rendererBadIdxDiff : ProjectDifference :=
  { path := "maplayer[x]⧫renderer-v2", change_type := .modified,
    old_value := none,
    new_value := some (E "renderer-v2" [] none []),
    description := "Modified renderer-v2 in maplayer[x]" }

/-- An empty project (no entities). -/
def docNoLayers : Element := E "qgis" [] none []

/-- A project with two entities, identifiers `a` and `b`. -/
def docLayersAB : Element :=
  E "qgis" [] none
    [E "projectlayers" [] none
      [E "maplayer" [] none [E "id" [] (some "a") []],
       E "maplayer" [] none [E "id" [] (some "b") []]]]

/-- `<p><x>a</x><x>b</x></p>`: two same-tag non-entity siblings. -/
def docXX : Element := E "p" [] none [E "x" [] (some "a") [], E "x" [] (some "b") []]

/-- The same parent with a third sibling `<x>c</x>` appended. -/
def docXXX : Element :=
  E "p" [] none [E "x" [] (some "a") [], E "x" [] (some "b") [], E "x" [] (some "c") []]

/-- The `Added L2` structural change of the concrete comparison. -/
def addedL2Change : StructuralChange :=
  { element_type := "maplayer", parent_path := "projectlayers",
    old_element := none, new_element := some layerL2, change_type := .added }

/-- A reference document whose layer tree orders `L9` before `L2`. -/
def dbTreeDoc : Element :=
  E "qgis" [] none
    [E "layer-tree-group" [] none
      [E "layer-tree-layer" [("id", "L9")] none [],
       E "layer-tree-layer" [("id", "L2")] none []]]

/-- A "Pointer Positions" overlay entity with all required children. -/
def pointerLayer : Element :=
  E "maplayer" [] none
    [E "id" [] (some "PP") [],
     E "layername" [] (some "Pointer Positions") [],
     E "datasource" [] (some "memory") [],
     E "provider" [] (some "memory") []]

/-- The entity-addition difference for the pointer-positions overlay. -/
def pointerDiff : ProjectDifference :=
  { path := "projectlayers⧫maplayer", change_type := .added,
    old_value := none, new_value := some pointerLayer,
    description := "Added maplayer in projectlayers" }

/-! ## Theorems -/

@[simp] theorem toList_ofList (cs : List Element) :
    (ElemList.ofList cs).toList = cs := by
  induction cs with
  | nil => rfl
  | cons c cs ih => simp [ElemList.ofList, ElemList.toList, ih]

@[simp] theorem E_tag (t : String) (a : List (String × String)) (x : Option String)
    (cs : List Element) : (E t a x cs).tag = t := rfl

@[simp] theorem E_attrs (t : String) (a : List (String × String)) (x : Option String)
    (cs : List Element) : (E t a x cs).attrs = a := rfl

@[simp] theorem E_text (t : String) (a : List (String × String)) (x : Option String)
    (cs : List Element) : (E t a x cs).text = x := rfl

@[simp] theorem E_children (t : String) (a : List (String × String)) (x : Option String)
    (cs : List Element) : (E t a x cs).children = cs := by
  simp [E, Element.children]

theorem esize_pos (e : Element) : 0 < esize e := by
  cases e with
  | el t a x cs => simp [esize]

theorem charLt_asymm {c d : Char} (h : charLt c d = true) : charLt d c = false := by
  simp only [charLt, decide_eq_true_eq] at h
  simp only [charLt, decide_eq_false_iff_not]
  omega

theorem charLt_trans {c d e : Char} (h1 : charLt c d = true) (h2 : charLt d e = true) :
    charLt c e = true := by
  simp only [charLt, decide_eq_true_eq] at h1 h2 ⊢
  omega

theorem charLt_total {c d : Char} (h : c ≠ d) :
    charLt c d = true ∨ charLt d c = true := by
  rcases Nat.lt_trichotomy c.toNat d.toNat with h1 | h1 | h1
  · exact Or.inl (by simp [charLt, h1])
  · exact absurd (Char.eq_of_val_eq (UInt32.toNat.inj h1)) h
  · exact Or.inr (by simp [charLt, h1])

theorem lexLt_asymm : ∀ {l m : List Char}, lexLt l m = true → lexLt m l = false
  | [], [], h => by simp [lexLt] at h
  | [], _ :: _, _ => by simp [lexLt]
  | _ :: _, [], h => by simp [lexLt] at h
  | c :: cs, d :: ds, h => by
    by_cases hcd : c = d
    · subst hcd
      simp only [lexLt, if_pos rfl] at h ⊢
      exact lexLt_asymm h
    · simp only [lexLt, if_neg hcd, if_neg (Ne.symm hcd)] at h ⊢
      exact charLt_asymm h

theorem lexLt_total : ∀ {l m : List Char}, l ≠ m →
    lexLt l m = true ∨ lexLt m l = true
  | [], [], h => absurd rfl h
  | [], _ :: _, _ => Or.inl (by simp [lexLt])
  | _ :: _, [], _ => Or.inr (by simp [lexLt])
  | c :: cs, d :: ds, h => by
    by_cases hcd : c = d
    · subst hcd
      have hne : cs ≠ ds := fun he => h (by rw [he])
      simp only [lexLt, if_pos rfl]
      exact lexLt_total hne
    · simp only [lexLt, if_neg hcd, if_neg (Ne.symm hcd)]
      exact charLt_total hcd

theorem lexLt_trans : ∀ {l m n : List Char}, lexLt l m = true → lexLt m n = true →
    lexLt l n = true
  | [], [], _, h1, _ => by simp [lexLt] at h1
  | [], _ :: _, [], _, h2 => by simp [lexLt] at h2
  | [], _ :: _, _ :: _, _, _ => by simp [lexLt]
  | _ :: _, [], _, h1, _ => by simp [lexLt] at h1
  | _ :: _, _ :: _, [], _, h2 => by simp [lexLt] at h2
  | a :: as, b :: bs, c :: cs, h1, h2 => by
    by_cases hab : a = b
    · subst hab
      by_cases hac : a = c
      · subst hac
        simp only [lexLt, if_pos rfl] at h1 h2 ⊢
        exact lexLt_trans h1 h2
      · simp only [lexLt, if_pos rfl, if_neg hac] at h1 h2 ⊢
        exact h2
    · by_cases hbc : b = c
      · subst hbc
        simp only [lexLt, if_neg hab] at h1 ⊢
        exact h1
      · simp only [lexLt, if_neg hab, if_neg hbc] at h1 h2
        by_cases hac : a = c
        · subst hac
          exact absurd h2 (by rw [charLt_asymm h1]; simp)
        · simp only [lexLt, if_neg hac]
          exact charLt_trans h1 h2

theorem strLt_asymm {a b : String} (h : strLt a b = true) : strLt b a = false :=
  lexLt_asymm h

theorem strLt_trans {a b c : String} (h1 : strLt a b = true) (h2 : strLt b c = true) :
    strLt a c = true :=
  lexLt_trans h1 h2

theorem strLt_total {a b : String} (h : a ≠ b) :
    strLt a b = true ∨ strLt b a = true :=
  lexLt_total (fun he => h (String.ext he))

theorem sinsert_comm (x y : String) : ∀ l : List String,
    sinsert x (sinsert y l) = sinsert y (sinsert x l) := by
  intro l
  by_cases hxy : x = y
  · subst hxy; rfl
  induction l with
  | nil =>
    rcases strLt_total hxy with hl | hl
    · simp [sinsert, hxy, Ne.symm hxy, hl, strLt_asymm hl]
    · simp [sinsert, hxy, Ne.symm hxy, hl, strLt_asymm hl]
  | cons z zs ih =>
    by_cases hyz : y = z
    · subst hyz
      by_cases hxz : strLt x y
      · simp [sinsert, hxy, Ne.symm hxy, hxz, strLt_asymm hxz]
      · simp [sinsert, hxy, Ne.symm hxy, hxz]
    · by_cases hxz : x = z
      · subst hxz
        by_cases hyx : strLt y x
        · simp [sinsert, hxy, Ne.symm hxy, hyz, hyx, strLt_asymm hyx]
        · simp [sinsert, hxy, Ne.symm hxy, hyz, hyx]
      · by_cases hylz : strLt y z
        · by_cases hxlz : strLt x z
          · rcases strLt_total hxy with hl | hl
            · simp [sinsert, hxy, Ne.symm hxy, hyz, hxz, hylz, hxlz, hl, strLt_asymm hl]
            · simp [sinsert, hxy, Ne.symm hxy, hyz, hxz, hylz, hxlz, hl, strLt_asymm hl]
          · have hzx : strLt z x = true :=
              (strLt_total hxz).resolve_left hxlz
            have hyx : strLt y x = true := strLt_trans hylz hzx
            simp [sinsert, hxy, Ne.symm hxy, hyz, hxz, hylz, hxlz, hyx, strLt_asymm hyx]
        · by_cases hxlz : strLt x z
          · have hzy : strLt z y = true :=
              (strLt_total hyz).resolve_left hylz
            have hxy2 : strLt x y = true := strLt_trans hxlz hzy
            simp [sinsert, hxy, Ne.symm hxy, hyz, hxz, hylz, hxlz, hxy2, strLt_asymm hxy2]
          · simp [sinsert, hxy, Ne.symm hxy, hyz, hxz, hylz, hxlz, ih]

theorem foldr_sinsert_swap (x : String) : ∀ (l : List String) (init : List String),
    sinsert x (l.foldr sinsert init) = l.foldr sinsert (sinsert x init)
  | [], _ => rfl
  | y :: ys, init => by
    simp only [List.foldr_cons]
    rw [sinsert_comm, foldr_sinsert_swap x ys init]

theorem setUnion_comm (a b : List String) : setUnion a b = setUnion b a := by
  unfold setUnion
  rw [List.foldr_append, List.foldr_append]
  induction a with
  | nil => simp
  | cons x xs ih =>
    simp only [List.foldr_cons]
    rw [ih, foldr_sinsert_swap]

theorem layerChangeFor_mirror (a b : Element) (tid : String) :
    layerChangeFor b a tid = (layerChangeFor a b tid).map mirrorSC := by
  unfold layerChangeFor
  cases ha : lookupLayer a tid <;> cases hb : lookupLayer b tid <;>
    simp [mirrorSC, ChangeType.flip]
  case some.some o n =>
    by_cases h : o = n
    · subst h; simp
    · simp [h, Ne.symm h, mirrorSC, ChangeType.flip]

theorem detect_layer_changes_mirror (a b : Element) :
    detect_layer_changes b a = (detect_layer_changes a b).map mirrorSC := by
  unfold detect_layer_changes detectLayerIter
  rw [setUnion_comm, List.map_flatMap]
  exact List.flatMap_congr (fun tid _ => layerChangeFor_mirror a b tid)

theorem dscIdx_mirror (rA rB : Element → Element → String → List StructuralChange)
    (hr : ∀ x y q, rB x y q = (rA y x q).map mirrorSC)
    (p t : String) (A B : List Element) (i : Nat) :
    dscIdx rB p t B A i = (dscIdx rA p t A B i).map mirrorSC := by
  unfold dscIdx
  cases hA : A[i]? <;> cases hB : B[i]? <;> simp [mirrorSC, ChangeType.flip]
  case some.some o n =>
    by_cases h : o = n
    · subst h; simp
    · simp [h, Ne.symm h, hr n o, mirrorSC, ChangeType.flip]

theorem dscTag_mirror (rA rB : Element → Element → String → List StructuralChange)
    (hr : ∀ x y q, rB x y q = (rA y x q).map mirrorSC)
    (p t : String) (A B : List Element) :
    dscTag rB p t B A = (dscTag rA p t A B).map mirrorSC := by
  have hmulti :
      (List.range (max B.length A.length)).flatMap (dscIdx rB p t B A) =
      ((List.range (max A.length B.length)).flatMap (dscIdx rA p t A B)).map mirrorSC := by
    rw [Nat.max_comm, List.map_flatMap]
    exact List.flatMap_congr (fun i _ => dscIdx_mirror rA rB hr p t A B i)
  rcases A with _ | ⟨o, _ | ⟨o2, os⟩⟩ <;> rcases B with _ | ⟨n, _ | ⟨n2, ns⟩⟩
  · simp [dscTag]
  · simp [dscTag, mirrorSC, ChangeType.flip]
  · have hB : (1 : Nat) < (n :: n2 :: ns).length := by
      simp only [List.length_cons]; omega
    simp only [dscTag]
    rw [if_pos (Or.inl hB), if_pos (Or.inr hB)]
    exact hmulti
  · simp [dscTag, mirrorSC, ChangeType.flip]
  · by_cases h : o = n
    · subst h; simp [dscTag]
    · simp [dscTag, h, Ne.symm h, hr n o, mirrorSC, ChangeType.flip]
  · have hB : (1 : Nat) < (n :: n2 :: ns).length := by
      simp only [List.length_cons]; omega
    simp only [dscTag]
    rw [if_pos (Or.inl hB), if_pos (Or.inr hB)]
    exact hmulti
  · have hA : (1 : Nat) < (o :: o2 :: os).length := by
      simp only [List.length_cons]; omega
    simp only [dscTag]
    rw [if_pos (Or.inr hA), if_pos (Or.inl hA)]
    exact hmulti
  · have hA : (1 : Nat) < (o :: o2 :: os).length := by
      simp only [List.length_cons]; omega
    simp only [dscTag]
    rw [if_pos (Or.inr hA), if_pos (Or.inl hA)]
    exact hmulti
  · have hA : (1 : Nat) < (o :: o2 :: os).length := by
      simp only [List.length_cons]; omega
    simp only [dscTag]
    rw [if_pos (Or.inr hA), if_pos (Or.inl hA)]
    exact hmulti

theorem dscF_mirror : ∀ (fuel : Nat) (a b : Element) (p : String),
    dscF fuel b a p = (dscF fuel a b p).map mirrorSC
  | 0, _, _, _ => rfl
  | fuel + 1, a, b, p => by
    simp only [dscF]
    rw [setUnion_comm, List.map_flatMap]
    exact List.flatMap_congr fun t _ =>
      dscTag_mirror (dscF fuel) (dscF fuel)
        (fun x y q => dscF_mirror fuel y x q) p t _ _

theorem layerChangeFor_self (a : Element) (tid : String) :
    layerChangeFor a a tid = [] := by
  unfold layerChangeFor
  cases h : lookupLayer a tid <;> simp

theorem detect_layer_changes_self (a : Element) : detect_layer_changes a a = [] := by
  unfold detect_layer_changes detectLayerIter
  exact List.flatMap_eq_nil_iff.mpr (fun tid _ => layerChangeFor_self a tid)

theorem dscIdx_self (r : Element → Element → String → List StructuralChange)
    (p t : String) (A : List Element) (i : Nat) : dscIdx r p t A A i = [] := by
  unfold dscIdx
  cases h : A[i]? <;> simp

theorem dscTag_self (r : Element → Element → String → List StructuralChange)
    (p t : String) (A : List Element) : dscTag r p t A A = [] := by
  rcases A with _ | ⟨o, _ | ⟨o2, os⟩⟩
  · simp [dscTag]
  · simp [dscTag]
  · have hA : (1 : Nat) < (o :: o2 :: os).length := by
      simp only [List.length_cons]; omega
    simp only [dscTag]
    rw [if_pos (Or.inl hA)]
    exact List.flatMap_eq_nil_iff.mpr (fun i _ => dscIdx_self r p t _ i)

theorem dscF_self (fuel : Nat) (a : Element) (p : String) : dscF fuel a a p = [] := by
  cases fuel with
  | zero => rfl
  | succ fuel =>
    simp only [dscF]
    exact List.flatMap_eq_nil_iff.mpr (fun t _ => dscTag_self (dscF fuel) p t _)

theorem strip_toDifference_mirror (c : StructuralChange) :
    stripD (toDifference (mirrorSC c)) = mirrorQuad (stripD (toDifference c)) := by
  by_cases h : c.parent_path = "" <;>
    simp [toDifference, mirrorSC, stripD, mirrorQuad, h]

/-- **C1** (code_bug evidence).  The source's title branch is an `elif`
whose condition implies the preceding generic `MODIFIED` branch's
condition, so it can never fire: applying a difference list with exactly
one title-modification record carrying non-empty new text "Project B"
issues **no** `set_title` call (no host call at all), counts the change as
skipped, and leaves the applied count at 0 — contradicting the claimed
`set_title("Project B")` invocation and applied-count increment. -/
theorem C1_title_branch_shadowed (host : Host) (db : Option Element) :
    apply_changes host [titleDiff] db =
      .ok { applied := false, applied_changes := 0, skipped_changes := 1,
            calls := [] } := rfl

/-- **C2** (code_bug evidence).  `apply` can raise: for a renderer-v2
modification whose parent path contains `maplayer[` followed by a
non-integer index, with reference content present, the `int(...)`
conversion sits outside the `try` block and the ValueError escapes the
apply loop instead of being counted as skipped. -/
theorem C2_apply_raises_on_bad_index (host : Host) (db_root : Element) :
    apply_changes host [rendererBadIdxDiff] (some db_root) =
      .error "ValueError: invalid literal for int()" := rfl

/-- **C6**.  Comparing a document against itself yields an empty
difference list. -/
theorem C6_compare_self_is_empty (t : Element) : compare_projects t t = [] := by
  have h1 : detect_layer_changes t t = [] := detect_layer_changes_self t
  have h2 : detect_structural_changes t t = [] := dscF_self _ t ""
  simp [compare_projects, h1, h2]

/-- **C5**.  Comparing A against B and B against A yields mirrored
difference lists: pointwise, the path is unchanged, `Added` and `Removed`
kinds flip (`Modified` stays), and old/new values swap. -/
theorem C5_compare_mirror (a b : Element) :
    (compare_projects b a).map stripD =
      ((compare_projects a b).map stripD).map mirrorQuad := by
  unfold compare_projects
  rw [detect_layer_changes_mirror a b]
  have hs : detect_structural_changes b a =
      (detect_structural_changes a b).map mirrorSC := by
    unfold detect_structural_changes
    rw [Nat.add_comm (esize b) (esize a)]
    exact dscF_mirror _ a b ""
  rw [hs]
  rw [← List.map_append, List.map_map, List.map_map, List.map_map, List.map_map]
  exact List.map_congr_left fun c _ => strip_toDifference_mirror c

/-- **C9** (code_bug evidence).  The identity matcher's output order is a
function of the iteration order over the identifier union — and the source
iterates a Python `set`, whose order is unspecified.  Two enumerations of
the same union (they are permutations of each other) produce differently
ordered difference lists for the same pair of inputs, so determinism of
the output order is not provided by the code. -/
theorem C9_iteration_order_dependent :
    (["a", "b"] : List String).Perm ["b", "a"] ∧
    detectLayerIter ["a", "b"] docNoLayers docLayersAB ≠
      detectLayerIter ["b", "a"] docNoLayers docLayersAB := by
  constructor
  · decide
  · decide

/-- **C3** (counterexample).  For a document with one entity `L1`, comparing
against its duplicate with `L2` appended yields **three** differences, not
exactly one: the identity pass contributes the `Added` record, but the
generic structural pass additionally reports `Modified projectlayers` and a
second (positional) `Added maplayer`. -/
theorem C3_counterexample_three_differences :
    (compare_projects docL1 docL1L2).length = 3 ∧
    (compare_projects docL1 docL1L2).length ≠ 1 := by
  constructor
  · decide
  · decide

/-- **C4** (counterexample).  For old `[x0, x1]` versus new `[x0, x1, x2]`,
the differ emits exactly one `Added` change, but its address carries **no**
index: the emitted record has parent path `""` and element type `x`, so the
resulting difference path is `"x"`, not `"x[2]"` (the indexed form appears
only in the recursion path for descendants). -/
theorem C4_counterexample_no_index_in_path :
    detect_structural_changes docXX docXXX =
      [{ element_type := "x", parent_path := "",
         old_element := none, new_element := some (E "x" [] (some "c") []),
         change_type := .added }] ∧
    ((detect_structural_changes docXX docXXX).map toDifference).map
        (fun d => d.path) ≠ ["x[2]"] := by
  constructor
  · decide
  · decide

/-- **C10**.  Every structural change produced by the identity-matching
pass carries the fixed element type `maplayer` and parent path
`projectlayers`, wherever the matched entity actually occurs in the tree;
hence its difference record always gets the path
`projectlayers⧫maplayer` (no identifier, no index) and the fixed
description `<Kind> maplayer in projectlayers`. -/
theorem C10_layer_pass_fixed_path (old_root new_root : Element) (c : StructuralChange)
    (hc : c ∈ detect_layer_changes old_root new_root) :
    c.element_type = "maplayer" ∧ c.parent_path = "projectlayers" ∧
    (toDifference c).path = "projectlayers⧫maplayer" ∧
    (toDifference c).description =
      c.change_type.title ++ " maplayer in projectlayers" := by
  unfold detect_layer_changes detectLayerIter at hc
  rw [List.mem_flatMap] at hc
  obtain ⟨tid, _, hc⟩ := hc
  unfold layerChangeFor at hc
  have hfields : c.element_type = "maplayer" ∧ c.parent_path = "projectlayers" := by
    cases h1 : lookupLayer old_root tid <;> cases h2 : lookupLayer new_root tid <;>
      rw [h1, h2] at hc
    · simp at hc
    · simp at hc; subst hc; exact ⟨rfl, rfl⟩
    · simp at hc; subst hc; exact ⟨rfl, rfl⟩
    · rename_i o n
      by_cases h : o = n
      · simp [h] at hc
      · simp [h] at hc; subst hc; exact ⟨rfl, rfl⟩
  obtain ⟨he, hp⟩ := hfields
  have h1 : toDifference c =
      { path := "projectlayers" ++ "⧫" ++ "maplayer", change_type := c.change_type,
        old_value := c.old_element, new_value := c.new_element,
        description :=
          c.change_type.title ++ " " ++ "maplayer" ++ " in " ++ "projectlayers" } := by
    simp only [toDifference, he, hp]
    rw [if_neg (by decide : ¬("projectlayers" = ""))]
  refine ⟨he, hp, ?_, ?_⟩
  · rw [h1]
    show "projectlayers" ++ "⧫" ++ "maplayer" = "projectlayers⧫maplayer"
    decide
  · rw [h1]
    show c.change_type.title ++ " " ++ "maplayer" ++ " in " ++ "projectlayers" =
      c.change_type.title ++ " maplayer in projectlayers"
    cases c.change_type <;> decide

/-- Witness for C10: the `Added L2` change of the concrete comparison sits
in the identity pass and carries the fixed path. -/
theorem C10_layer_pass_fixed_path_witness :
    addedL2Change ∈ detect_layer_changes docL1 docL1L2 ∧
    (toDifference addedL2Change).path = "projectlayers⧫maplayer" :=
  ⟨by decide,
   (C10_layer_pass_fixed_path docL1 docL1L2 _ (by decide)).2.2.1⟩

/-- A key absent from the identifier keys has no entry in the id mapping. -/
theorem lookupLayer_eq_none_of_not_mem (root : Element) (tid : String)
    (h : tid ∉ layerKeys root) : lookupLayer root tid = none := by
  unfold lookupLayer
  have hnil : (findallDeep "maplayer" root).filter (fun l => layerId l = some tid) = [] := by
    rw [List.filter_eq_nil_iff]
    intro l hl he
    simp only [decide_eq_true_eq] at he
    exact h (List.mem_filterMap.mpr ⟨l, hl, he⟩)
  rw [hnil]
  rfl

/-- **C3** (amended).  The identity-matching *pass* behaves as claimed:
if the old tree's identifier keys are exactly `[L1]` and the new tree adds
`L2` while keeping `L1`'s entity unchanged, the pass yields exactly one
`Added` change whose new value is the `L2` entity; dually, if the new tree
has no keys, the pass yields exactly one `Removed` change with `L1`'s
entity as old value — regardless of where the entities sit in the trees
(only the key lists are constrained).  The *full* `compare` output is this
record plus the positional structural-pass records for the same edit (see
the counterexample). -/
theorem C3_amended_identity_pass (old_root new_root old2 new2 : Element)
    (l1 l2 : Element) :
    (layerKeys old_root = ["L1"] → layerKeys new_root = ["L1", "L2"] →
      lookupLayer old_root "L1" = lookupLayer new_root "L1" →
      lookupLayer new_root "L2" = some l2 →
      detect_layer_changes old_root new_root =
        [{ element_type := "maplayer", parent_path := "projectlayers",
           old_element := none, new_element := some l2, change_type := .added }]) ∧
    (layerKeys old2 = ["L1"] → layerKeys new2 = [] →
      lookupLayer old2 "L1" = some l1 →
      detect_layer_changes old2 new2 =
        [{ element_type := "maplayer", parent_path := "projectlayers",
           old_element := some l1, new_element := none, change_type := .removed }]) := by
  constructor
  · intro h1 h2 h3 h4
    unfold detect_layer_changes
    rw [h1, h2]
    have hu : setUnion ["L1"] ["L1", "L2"] = ["L1", "L2"] := by decide
    rw [hu]
    have hold2 : lookupLayer old_root "L2" = none :=
      lookupLayer_eq_none_of_not_mem old_root "L2" (by rw [h1]; decide)
    unfold detectLayerIter
    simp only [List.flatMap_cons, List.flatMap_nil, List.append_nil]
    have hfst : layerChangeFor old_root new_root "L1" = [] := by
      unfold layerChangeFor
      rw [h3]
      cases hv : lookupLayer new_root "L1" <;> simp
    have hsnd : layerChangeFor old_root new_root "L2" =
        [{ element_type := "maplayer", parent_path := "projectlayers",
           old_element := none, new_element := some l2, change_type := .added }] := by
      unfold layerChangeFor
      rw [hold2, h4]
    rw [hfst, hsnd]
    rfl
  · intro h1 h2 h3
    unfold detect_layer_changes
    rw [h1, h2]
    have hu : setUnion ["L1"] [] = ["L1"] := by decide
    rw [hu]
    have hnew1 : lookupLayer new2 "L1" = none :=
      lookupLayer_eq_none_of_not_mem new2 "L1" (by rw [h2]; decide)
    unfold detectLayerIter
    simp only [List.flatMap_cons, List.flatMap_nil, List.append_nil]
    unfold layerChangeFor
    rw [h3, hnew1]

/-- Witness for the amended C3 at concrete documents (adding `L2`;
removing `L1`). -/
theorem C3_amended_identity_pass_witness :
    detect_layer_changes docL1 docL1L2 =
      [{ element_type := "maplayer", parent_path := "projectlayers",
         old_element := none, new_element := some layerL2, change_type := .added }] ∧
    detect_layer_changes docL1 docNoLayers =
      [{ element_type := "maplayer", parent_path := "projectlayers",
         old_element := some layerL1, new_element := none, change_type := .removed }] :=
  ⟨(C3_amended_identity_pass docL1 docL1L2 docL1 docNoLayers layerL1 layerL2).1
      (by decide) (by decide) (by decide) (by decide),
   (C3_amended_identity_pass docL1 docL1L2 docL1 docNoLayers layerL1 layerL2).2
      (by decide) (by decide) (by decide)⟩

/-- Elements without children produce no structural changes (the recursion
has no tags to visit). -/
theorem dscF_no_children (fuel : Nat) (x y : Element) (p : String)
    (hx : x.children = []) (hy : y.children = []) : dscF fuel x y p = [] := by
  cases fuel with
  | zero => rfl
  | succ fuel => simp [dscF, hx, hy, setUnion]

/-- **C4** (amended).  For same-tag non-entity siblings the differ compares
positionally up to the longer side: old `[x0, x1]` versus new
`[x0, x1, x2]` yields exactly one `Added` whose record sits at the parent
path with element type `x` (the `[2]` index appears only in recursion
paths, not in the emitted address); old `[x0, x1]` versus new `[x0', x1]`
(`x0` modified, childless) yields exactly one `Modified` at index 0, again
addressed without the index. -/
theorem C4_amended_positional_compare (t : String) (a b c a2 : Element)
    (ha : a.tag = t) (hb : b.tag = t) (hc : c.tag = t) (ha2 : a2.tag = t)
    (hne : a ≠ a2) (hac : a.children = []) (ha2c : a2.children = []) :
    detect_structural_changes (E "p" [] none [a, b]) (E "p" [] none [a, b, c]) =
      [{ element_type := t, parent_path := "", old_element := none,
         new_element := some c, change_type := .added }] ∧
    detect_structural_changes (E "p" [] none [a, b]) (E "p" [] none [a2, b]) =
      [{ element_type := t, parent_path := "", old_element := some a,
         new_element := some a2, change_type := .modified }] := by
  constructor
  · unfold detect_structural_changes
    obtain ⟨k, hk⟩ := Nat.exists_eq_succ_of_ne_zero
      (Nat.pos_iff_ne_zero.mp
        (Nat.lt_of_lt_of_le (esize_pos (E "p" [] none [a, b])) (Nat.le_add_right _ _)))
    rw [hk]
    simp only [dscF, E_children]
    have hta : List.map Element.tag [a, b] = [t, t] := by simp [ha, hb]
    have htb : List.map Element.tag [a, b, c] = [t, t, t] := by simp [ha, hb, hc]
    rw [hta, htb]
    have hu : setUnion [t, t] [t, t, t] = [t] := by simp [setUnion, sinsert]
    rw [hu]
    simp only [List.flatMap_cons, List.flatMap_nil, List.append_nil]
    have hfa : List.filter (fun x => x.tag = t) [a, b] = [a, b] := by simp [ha, hb]
    have hfb : List.filter (fun x => x.tag = t) [a, b, c] = [a, b, c] := by
      simp [ha, hb, hc]
    rw [hfa, hfb]
    simp [dscTag, dscIdx, List.range_succ]
  · unfold detect_structural_changes
    obtain ⟨k, hk⟩ := Nat.exists_eq_succ_of_ne_zero
      (Nat.pos_iff_ne_zero.mp
        (Nat.lt_of_lt_of_le (esize_pos (E "p" [] none [a, b])) (Nat.le_add_right _ _)))
    rw [hk]
    simp only [dscF, E_children]
    have hta : List.map Element.tag [a, b] = [t, t] := by simp [ha, hb]
    have htb : List.map Element.tag [a2, b] = [t, t] := by simp [ha2, hb]
    rw [hta, htb]
    have hu : setUnion [t, t] [t, t] = [t] := by simp [setUnion, sinsert]
    rw [hu]
    simp only [List.flatMap_cons, List.flatMap_nil, List.append_nil]
    have hfa : List.filter (fun x => x.tag = t) [a, b] = [a, b] := by simp [ha, hb]
    have hfb : List.filter (fun x => x.tag = t) [a2, b] = [a2, b] := by simp [ha2, hb]
    rw [hfa, hfb]
    simp [dscTag, dscIdx, List.range_succ, hne,
      dscF_no_children k a a2 _ hac ha2c]

/-- The position loop returns the first index whose `id` attribute matches,
shifted by the start accumulator. -/
theorem enumeratePos_of_mem (target : String) :
    ∀ (l : List Element) (i : Nat),
      some target ∈ l.map (fun tl => elemAttr tl "id") →
      enumeratePos target l i =
        (l.map (fun tl => elemAttr tl "id")).indexOf (some target) + i
  | [], i, h => by simp at h
  | tl :: tls, i, h => by
    by_cases hfa : elemAttr tl "id" = some target
    · have hbeq : (elemAttr tl "id" == some target) = true := by simp [hfa]
      simp [enumeratePos, if_pos hfa, List.indexOf_cons, hbeq]
    · have hb : some target ∈ tls.map (fun tl => elemAttr tl "id") := by
        simp only [List.map_cons, List.mem_cons] at h
        rcases h with h | h
        · exact absurd h.symm hfa
        · exact h
      have hbeq : (elemAttr tl "id" == some target) = false := by simp [hfa]
      simp only [enumeratePos, if_neg hfa, List.map_cons, List.indexOf_cons, hbeq,
        cond_false]
      rw [enumeratePos_of_mem target tls (i + 1) hb]
      omega

/-- The position loop falls through to 0 when no `id` attribute matches. -/
theorem enumeratePos_of_not_mem (target : String) :
    ∀ (l : List Element) (i : Nat),
      some target ∉ l.map (fun tl => elemAttr tl "id") →
      enumeratePos target l i = 0
  | [], _, _ => rfl
  | tl :: tls, i, h => by
    have hfa : ¬(elemAttr tl "id" = some target) := fun he => h (by simp [he])
    have hb : some target ∉ tls.map (fun tl => elemAttr tl "id") := fun he =>
      h (by simp [he])
    simp only [enumeratePos, if_neg hfa]
    exact enumeratePos_of_not_mem target tls (i + 1) hb

/-- **C8**.  `resolve_insert_position` (`get_layer_position`) is total
(never raises, being a Lean function) and behaves exactly as specified:
when the entity has a (truthy) identifier, the reference tree is present,
and a layer-tree-group exists, it returns the 0-based position of the
identifier among the group's direct layer-tree-layer id attributes, or 0
when the identifier is absent from that list; and it returns 0 when the
entity has no identifier, when the reference tree is absent/unparseable,
or when no layer-tree-group exists. -/
theorem C8_get_layer_position_spec (ml : Element) (db : Option Element) :
    (∀ tid root lt,
      layerId ml = some tid → db = some root →
      (descendants root).find? (fun e => e.tag = "layer-tree-group") = some lt →
      ((some tid ∈ (lt.children.filter (fun c => c.tag = "layer-tree-layer")).map
            (fun tl => elemAttr tl "id") →
          get_layer_position ml db =
            ((lt.children.filter (fun c => c.tag = "layer-tree-layer")).map
              (fun tl => elemAttr tl "id")).indexOf (some tid)) ∧
       (some tid ∉ (lt.children.filter (fun c => c.tag = "layer-tree-layer")).map
            (fun tl => elemAttr tl "id") →
          get_layer_position ml db = 0))) ∧
    (layerId ml = none → get_layer_position ml db = 0) ∧
    (db = none → get_layer_position ml db = 0) ∧
    (∀ tid root,
      layerId ml = some tid → db = some root →
      (descendants root).find? (fun e => e.tag = "layer-tree-group") = none →
      get_layer_position ml db = 0) := by
  refine ⟨?_, ?_, ?_, ?_⟩
  · intro tid root lt h1 h2 h3
    subst h2
    constructor
    · intro hmem
      simp only [get_layer_position, h1, h3]
      rw [enumeratePos_of_mem tid _ 0 hmem, Nat.add_zero]
    · intro hmem
      simp only [get_layer_position, h1, h3]
      exact enumeratePos_of_not_mem tid _ 0 hmem
  · intro h1
    simp [get_layer_position, h1]
  · intro h2
    subst h2
    simp only [get_layer_position]
    cases layerId ml <;> rfl
  · intro tid root h1 h2 h3
    subst h2
    simp [get_layer_position, h1, h3]

/-- Witness for C8: entity `L2` resolves to position 1 in the concrete
reference tree. -/
theorem C8_get_layer_position_spec_witness :
    get_layer_position layerL2 (some dbTreeDoc) = 1 :=
  Eq.trans
    (((C8_get_layer_position_spec layerL2 (some dbTreeDoc)).1 "L2" dbTreeDoc
        (E "layer-tree-group" [] none
          [E "layer-tree-layer" [("id", "L9")] none [],
           E "layer-tree-layer" [("id", "L2")] none []])
        (by decide) rfl (by decide)).1 (by decide))
    (by decide)

/-- Witness for the amended C4, at concrete childless `<x>` elements. -/
theorem C4_amended_positional_compare_witness :
    detect_structural_changes
        (E "p" [] none [E "x" [] (some "a") [], E "x" [] (some "b") []])
        (E "p" [] none
          [E "x" [] (some "a") [], E "x" [] (some "b") [], E "x" [] (some "c") []]) =
      [{ element_type := "x", parent_path := "", old_element := none,
         new_element := some (E "x" [] (some "c") []), change_type := .added }] ∧
    detect_structural_changes
        (E "p" [] none [E "x" [] (some "a") [], E "x" [] (some "b") []])
        (E "p" [] none [E "x" [] (some "a2") [], E "x" [] (some "b") []]) =
      [{ element_type := "x", parent_path := "",
         old_element := some (E "x" [] (some "a") []),
         new_element := some (E "x" [] (some "a2") []),
         change_type := .modified }] :=
  ⟨(C4_amended_positional_compare "x" (E "x" [] (some "a") []) (E "x" [] (some "b") [])
      (E "x" [] (some "c") []) (E "x" [] (some "a2") []) rfl rfl rfl rfl
      (by decide) (by decide) (by decide)).1,
   (C4_amended_positional_compare "x" (E "x" [] (some "a") []) (E "x" [] (some "b") [])
      (E "x" [] (some "c") []) (E "x" [] (some "a2") []) rfl rfl rfl rfl
      (by decide) (by decide) (by decide)).2⟩

/-- The sentinel check: an entity whose layername text equals
"Pointer Positions" is skipped before any host interaction. -/
theorem apply_layer_addition_sentinel (host : Host) (ml : Element) (pos : Nat)
    (dse lne pre : Element)
    (h1 : elemFindChild ml "datasource" = some dse)
    (h2 : elemFindChild ml "layername" = some lne)
    (h3 : elemFindChild ml "provider" = some pre)
    (h4 : lne.text = some "Pointer Positions") :
    apply_layer_addition host ml pos = [] := by
  simp only [apply_layer_addition, h1, h2, h3, h4]
  simp

/-- **C7**.  Applying a difference list with one entity addition whose
element carries the required datasource/layername/provider children and
whose display name is the reserved "Pointer Positions" sentinel performs
zero host mutation calls, yet counts as applied (handled-without-effect),
not skipped — for any host state and any reference document. -/
theorem C7_pointer_positions_applied_without_effect
    (host : Host) (db : Option Element) (ml : Element) (ov : Option Element)
    (s : String) (dse lne pre : Element)
    (h1 : elemFindChild ml "datasource" = some dse)
    (h2 : elemFindChild ml "layername" = some lne)
    (h3 : elemFindChild ml "provider" = some pre)
    (h4 : lne.text = some "Pointer Positions") :
    apply_changes host
      [{ path := "projectlayers⧫maplayer", change_type := .added,
         old_value := ov, new_value := some ml, description := s }] db =
      .ok { applied := true, applied_changes := 1, skipped_changes := 0,
            calls := [] } := by
  have hadd := apply_layer_addition_sentinel host ml
    (get_layer_position ml db) dse lne pre h1 h2 h3 h4
  have hsplit : pySplit "projectlayers⧫maplayer" "⧫" = ["projectlayers", "maplayer"] := by
    decide
  have hjoin : String.intercalate "⧫" ["projectlayers"] = "projectlayers" := by decide
  simp only [apply_changes, List.foldlM, applyOne, hsplit]
  simp [hadd, hjoin]

/-- Witness for C7 at the concrete pointer-positions entity. -/
theorem C7_pointer_positions_applied_without_effect_witness :
    apply_changes hostEmpty [pointerDiff] none =
      .ok { applied := true, applied_changes := 1, skipped_changes := 0,
            calls := [] } :=
  C7_pointer_positions_applied_without_effect hostEmpty none pointerLayer none
    "Added maplayer in projectlayers"
    (E "datasource" [] (some "memory") [])
    (E "layername" [] (some "Pointer Positions") [])
    (E "provider" [] (some "memory") [])
    (by decide) (by decide) (by decide) (by decide)
